import Mathlib

/-
Verification of the Git synchronization service (one_dragon/envs/git_service.py).

Shallow embedding: the service's operations are translated into pure Lean
functions over an explicit repository state.  Commit ids are modelled as Nat,
references as an association list from ref names to commit ids, and the
behaviour of the external pygit2 primitives is modelled after their documented
semantics (in particular `Repository.descendant_of`, documented by pygit2 and
libgit2 as "a commit is not considered a descendant of itself").
-/

set_option autoImplicit false

namespace GitServiceModel

/-- GitOperationResult from git_service.py: success flag, result code,
human-readable message and optional diagnostic detail. -/
structure GitOperationResult where
  success : Bool
  code : String
  message : String
  detail : Option String
  deriving DecidableEq, Repr

/-- to_tuple: collapse a result to the (success, message) pair returned at the
public boundary. -/
def GitOperationResult.toTuple (r : GitOperationResult) : Bool × String :=
  (r.success, r.message)

/-- State of the on-disk repository as seen by the service.
`refs` maps reference names (such as "refs/remotes/origin/main") to commit
ids; `head` is the target of HEAD (none when HEAD is unborn, in which case
`repo.head` raises and the service treats it as missing); `headName` is the
shorthand name HEAD points at (none when reading it raises); `statusLen` is
the size of `repo.status()` (none when the status query raises); `reach a b`
states that commit `b` is reachable from commit `a` by following parent
edges, including the reflexive case `a = b` (the ancestor relation of the
commit graph); `resetLog` records the targets of the hard resets performed,
in order, so theorems can speak about which resets an operation executed. -/
structure RepoState where
  refs : List (String × Nat)
  head : Option Nat
  headName : Option String
  statusLen : Option Nat
  reach : Nat → Nat → Bool
  resetLog : List Nat

/-- Environment of one sync invocation: the outcomes of the network/config
steps that the service checks before touching the local repository, plus the
configuration values read from EnvConfig. `ensureRemoteOk` is the outcome of
_ensure_remote (false covers an empty resolved URL as well as any exception
caught inside it); `fetchOk` is the outcome of remote.fetch inside
_fetch_remote (false = the fetch raised and was translated to FETCH_ERROR);
`initOk` is the outcome of pygit2.init_repository in clone_repository. -/
structure SyncEnv where
  dotGitExists : Bool
  initOk : Bool
  ensureRemoteOk : Bool
  fetchOk : Bool
  forceUpdate : Bool
  gitBranch : String

/-- Lookup of a reference name in the repository's reference store
(`name in repo.references` / `repo.references[name].target`). -/
def refLookup : List (String × Nat) → String → Option Nat
  | [], _ => none
  | (k, v) :: rest, n => if k = n then some v else refLookup rest n

/-- Update or insert a reference (`repo.references[r].set_target` /
`repo.create_branch`). -/
def setRef : List (String × Nat) → String → Nat → List (String × Nat)
  | [], n, o => [(n, o)]
  | (k, v) :: rest, n, o =>
    if k = n then (n, o) :: rest else (k, v) :: setRef rest n o

/-- Name of the remote-tracking ref of a branch, as built in the source:
f'refs/remotes/origin/{branch}'. -/
def remoteRefName (branch : String) : String :=
  "refs/remotes/origin/" ++ branch

/-- Name of the local ref of a branch: f'refs/heads/{branch}'. -/
def localRefName (branch : String) : String :=
  "refs/heads/" ++ branch

/-- pygit2 Repository.descendant_of(c, a): true iff `c` is a descendant of
`a`.  Documented by pygit2 (and implemented by libgit2 git_graph_descendant_of)
as: a commit is NOT considered a descendant of itself, in contrast to
git merge-base --is-ancestor. -/
def descendantOf (s : RepoState) (c a : Nat) : Bool :=
  (c != a) && s.reach c a

/-- repo.reset(oid, pygit2.GIT_RESET_HARD): HEAD moves to `oid` and the
working tree is forced to match it, so the status becomes clean.  The target
is appended to `resetLog`.  (The movement of the current branch ref is not
modelled: no modelled code path reads a "refs/heads/..." entry after a
reset.) -/
def hardReset (s : RepoState) (oid : Nat) : RepoState :=
  { s with head := some oid, statusLen := some 0, resetLog := s.resetLog ++ [oid] }

/-- is_current_branch_clean: len(repo.status()) == 0, or None when the status
query raises. -/
def is_current_branch_clean (s : RepoState) : Option Bool :=
  match s.statusLen with
  | none => none
  | some n => some (n == 0)

/-- Python truthiness of an Optional[bool]: None and False are falsy. -/
def optTruthy : Option Bool → Bool
  | none => false
  | some b => b

/-- get_current_branch: repo.head.shorthand, or None when reading HEAD raises
(unborn HEAD). -/
def get_current_branch (s : RepoState) : Option String :=
  match s.head with
  | none => none
  | some _ => s.headName

/-- _get_branch_commit: prefer the remote-tracking ref of the branch; when it
is absent and allow_local is set, fall back to the local HEAD commit. -/
def getBranchCommit (s : RepoState) (branch : String) (allowLocal : Bool) : Option Nat :=
  match refLookup s.refs (remoteRefName branch) with
  | some oid => some oid
  | none => if allowLocal then s.head else none

/-- _checkout_branch: resolve the branch commit, point the local branch ref at
it, force-checkout and set HEAD.  Returns (success, commit id) plus the new
state.  (The post-checkout working-tree status is not read by any modelled
path, so `statusLen` is left unchanged.) -/
def checkoutBranch (s : RepoState) (branch : String) (allowLocal : Bool) :
    (Bool × Option Nat) × RepoState :=
  match getBranchCommit s branch allowLocal with
  | none => ((false, none), s)
  | some c =>
    ((true, some c),
     { s with refs := setRef s.refs (localRefName branch) c,
              head := some c,
              headName := some branch })

/-- _sync_with_remote: reconcile the local branch tip with the
remote-tracking tip of `branch`, forcing when `force` is set. -/
def sync_with_remote (s : RepoState) (branch : String) (force : Bool) :
    GitOperationResult × RepoState :=
  match refLookup s.refs (remoteRefName branch) with
  | none =>
    (⟨true, "REMOTE_BRANCH_MISSING", "", some ("missing " ++ remoteRefName branch)⟩, s)
  | some remoteOid =>
    match s.head with
    | none =>
      if force then
        (⟨true, "RESET_HEAD", "更新本地代码成功", some ("reset to " ++ toString remoteOid)⟩,
         hardReset s remoteOid)
      else
        (⟨false, "HEAD_MISSING", "更新本地代码失败", some "HEAD missing"⟩, s)
    | some localOid =>
      if descendantOf s remoteOid localOid then
        (⟨true, "FAST_FORWARD", "更新本地代码成功",
          some (toString localOid ++ " -> " ++ toString remoteOid)⟩,
         hardReset s remoteOid)
      else if force then
        (⟨true, "FORCED_RESET", "更新本地代码成功",
          some (toString localOid ++ " -> " ++ toString remoteOid)⟩,
         hardReset s remoteOid)
      else
        (⟨false, "NEED_MANUAL_REBASE", "更新本地代码失败",
          some ("local " ++ toString localOid ++ " ahead of " ++ toString remoteOid)⟩, s)

/-- Tail of checkout_latest_project_branch after the working-tree guard:
detect the current branch, check out the target branch (allow_local=True) and
reconcile with the remote via _sync_with_remote. -/
def checkoutLatestTail (env : SyncEnv) (s : RepoState) : (Bool × String) × RepoState :=
  match get_current_branch s with
  | none => ((false, "获取当前分支失败"), s)
  | some _ =>
    match checkoutBranch s env.gitBranch true with
    | ((false, _), s2) => ((false, "切换到目标分支失败"), s2)
    | ((true, _), s2) =>
      let rs := sync_with_remote s2 env.gitBranch env.forceUpdate
      (rs.1.toTuple, rs.2)

/-- checkout_latest_project_branch: ensure the remote, fetch, guard on
working-tree cleanliness (hard-resetting when dirty and force_update is
enabled, failing when dirty and force_update is disabled), then check out and
reconcile the target branch.  The fetch itself is modelled as having already
brought `refs` up to date (the claims under study assume no intervening remote
change). -/
def checkout_latest_project_branch (env : SyncEnv) (s : RepoState) :
    (Bool × String) × RepoState :=
  if !env.ensureRemoteOk then ((false, "更新远程仓库地址失败"), s)
  else if !env.fetchOk then ((false, "获取远程代码失败"), s)
  else
    let guard : Except (Bool × String) RepoState :=
      if optTruthy (is_current_branch_clean s) then Except.ok s
      else if env.forceUpdate then
        match getBranchCommit s env.gitBranch false with
        | none => Except.error (false, "强制更新失败")
        | some c => Except.ok (hardReset s c)
      else
        Except.error (false, "未开启强制更新 当前代码有修改 请自行处理后再更新")
    match guard with
    | Except.error r => (r, s)
    | Except.ok s2 => checkoutLatestTail env s2

/-- clone_repository: initialize the repository, ensure the remote with
for_clone=True, fetch, check out the target branch (allow_local=False) and
hard-reset to the target commit. -/
def clone_repository (env : SyncEnv) (s : RepoState) : (Bool × String) × RepoState :=
  if !env.initOk then ((false, "克隆仓库失败"), s)
  else if !env.ensureRemoteOk then ((false, "更新远程仓库地址失败"), s)
  else if !env.fetchOk then ((false, "获取远程代码失败"), s)
  else
    match checkoutBranch s env.gitBranch false with
    | ((false, _), s2) => ((false, "克隆仓库失败"), s2)
    | ((true, targetOid), s2) =>
      match targetOid with
      | some oid => ((true, "克隆仓库成功"), hardReset s2 oid)
      | none => ((true, "克隆仓库成功"), s2)

/-- fetch_latest_code: clone when the .git directory does not exist, otherwise
checkout_latest_project_branch. -/
def fetch_latest_code (env : SyncEnv) (s : RepoState) : (Bool × String) × RepoState :=
  if env.dotGitExists then checkout_latest_project_branch env s
  else clone_repository env s

/-! History reader: fetch_page_commit / fetch_total_commit / get_current_version. -/

/-- A commit as the history walker yields it: full hex id, optional author
name (None author or None/empty name become ''), commit time (epoch seconds)
and raw message. -/
structure CommitC where
  id : String
  author : Option String
  commitTime : Nat
  message : String
  deriving DecidableEq, Repr

/-- GitLog record built by fetch_page_commit. -/
structure GitLog where
  commit_id : String
  author : String
  commit_time : String
  commit_message : String
  deriving DecidableEq, Repr

/-- Characters of a string up to (excluding) the first line feed: the first
line of message.splitlines().  (Python splitlines also splits on terminators
other than LF; only LF splitting is modelled, the common case for commit
messages.) -/
def firstLineChars : List Char → List Char
  | [] => []
  | c :: cs => if c == Char.ofNat 10 then [] else c :: firstLineChars cs

/-- Projection of a walker commit into a GitLog, translated from the loop body
of fetch_page_commit: short_id = str(commit.id)[:7]; author falls back to '';
commit_time is formatted by time.strftime/time.gmtime (modelled by the
formatting function `fmt`); the message keeps only its first line. -/
def toGitLog (fmt : Nat → String) (c : CommitC) : GitLog :=
  { commit_id := c.id.take 7,
    author := match c.author with
      | some a => if a = "" then "" else a
      | none => "",
    commit_time := fmt c.commitTime,
    commit_message := if c.message = "" then "" else String.mk (firstLineChars c.message.data) }

/-- The enumerate loop of fetch_page_commit: skip entries while
idx < page_num * page_size (`skip`), stop once page_size records are
collected, otherwise append the projected record. -/
def pageLoop (fmt : Nat → String) (skip pageSize : Nat) :
    List CommitC → Nat → List GitLog → List GitLog
  | [], _, logs => logs
  | c :: rest, idx, logs =>
    if idx < skip then pageLoop fmt skip pageSize rest (idx + 1) logs
    else if pageSize ≤ logs.length then logs
    else pageLoop fmt skip pageSize rest (idx + 1) (logs ++ [toGitLog fmt c])

/-- fetch_page_commit: walk history from HEAD in GIT_SORT_TIME
(reverse-chronological) order — modelled as the list `commitsFromHead`, none
when HEAD is missing (the function then returns []) — and collect the
requested page. -/
def fetch_page_commit (fmt : Nat → String) (commitsFromHead : Option (List CommitC))
    (pageNum pageSize : Nat) : List GitLog :=
  match commitsFromHead with
  | none => []
  | some l => pageLoop fmt (pageNum * pageSize) pageSize l 0 []

/-- fetch_total_commit: count the commits reachable from HEAD; 0 when HEAD is
missing. -/
def fetch_total_commit (commitsFromHead : Option (List CommitC)) : Nat :=
  match commitsFromHead with
  | none => 0
  | some l => l.length

/-- get_current_version: logs = fetch_page_commit(0, 1);
logs[0].commit_id if logs else None. -/
def get_current_version (fmt : Nat → String) (commitsFromHead : Option (List CommitC)) :
    Option String :=
  match (fetch_page_commit fmt commitsFromHead 0 1).head? with
  | some g => some g.commit_id
  | none => none

/-! Remote resolver: get_git_repository. -/

/-- Repository hosting provider read from configuration.  The configuration
value is a raw string; `other` covers every string that is neither the GITHUB
nor the GITEE enum value (the function's final `return ''` fallback). -/
inductive RepoTypeV where
  | github
  | gitee
  | other
  deriving DecidableEq, Repr

/-- Transport protocol read from configuration.  The source compares the
configured string against the HTTPS enum value and treats every other value
as SSH (the `else` branch), so `ssh` covers all non-HTTPS values. -/
inductive GitMethodV where
  | https
  | ssh
  deriving DecidableEq, Repr

/-- Configuration consumed by get_git_repository: provider, transport, the
gh-proxy flag and endpoint from EnvConfig, and the four repository URLs from
ProjectConfig. -/
structure UrlConfig where
  repoType : RepoTypeV
  gitMethod : GitMethodV
  isGhProxy : Bool
  ghProxyUrl : String
  githubHttps : String
  githubSsh : String
  giteeHttps : String
  giteeSsh : String
  deriving DecidableEq, Repr

/-- get_git_repository: resolve the effective remote URL from the
configuration; the gh-proxy rewrite f'{gh_proxy_url}/{repo}' is applied only
in the GITHUB/HTTPS branch and only when is_gh_proxy and for_clone hold. -/
def get_git_repository (cfg : UrlConfig) (forClone : Bool) : String :=
  match cfg.repoType with
  | RepoTypeV.github =>
    match cfg.gitMethod with
    | GitMethodV.https =>
      if cfg.isGhProxy && forClone then cfg.ghProxyUrl ++ "/" ++ cfg.githubHttps
      else cfg.githubHttps
    | GitMethodV.ssh => cfg.githubSsh
  | RepoTypeV.gitee =>
    match cfg.gitMethod with
    | GitMethodV.https => cfg.giteeHttps
    | GitMethodV.ssh => cfg.giteeSsh
  | RepoTypeV.other => ""

/-- Resolution rule as claim C6 words it ("rewritten through the hosting-proxy
endpoint exactly when the hosting-proxy is enabled and forClone is true",
independent of the provider): stated from the claim, for refinement
comparison against get_git_repository. -/
def get_git_repository_claimC6 (cfg : UrlConfig) (forClone : Bool) : String :=
  match cfg.repoType with
  | RepoTypeV.other => ""
  | _ =>
    match cfg.gitMethod with
    | GitMethodV.https =>
      let direct := match cfg.repoType with
        | RepoTypeV.github => cfg.githubHttps
        | RepoTypeV.gitee => cfg.giteeHttps
        | RepoTypeV.other => ""
      if cfg.isGhProxy && forClone then cfg.ghProxyUrl ++ "/" ++ direct
      else direct
    | GitMethodV.ssh =>
      match cfg.repoType with
      | RepoTypeV.github => cfg.githubSsh
      | RepoTypeV.gitee => cfg.giteeSsh
      | RepoTypeV.other => ""

/-! Tag resolver: the selection loop of get_latest_tag. -/

/-- Whether the character list `s` begins with the pattern `pat`. -/
def beginsWith : List Char → List Char → Bool
  | [], _ => true
  | _ :: _, [] => false
  | p :: ps, c :: cs => p == c && beginsWith ps cs

/-- Whether the pattern `pat` occurs as a contiguous run inside `s`. -/
def containsChars (pat : List Char) : List Char → Bool
  | [] => beginsWith pat []
  | c :: cs => beginsWith pat (c :: cs) || containsChars pat cs

/-- Python str.startswith, on the strings' character lists. -/
def strStartsWith (pre s : String) : Bool :=
  beginsWith pre.data s.data

/-- '-beta' in version: the pre-release marker test of get_latest_tag
(Python substring containment). -/
def containsBetaMarker (v : String) : Bool :=
  containsChars "-beta".data v.data

/-- The selection loop of get_latest_tag over the de-duplicated,
ascending-sorted version list: the first pre-release version is recorded as
latest_beta (first occurrence only), and the loop breaks entirely at the first
stable version, recording it as latest_stable. -/
def scanTags : List String → Option String → Option String → Option String × Option String
  | [], st, be => (st, be)
  | v :: rest, st, be =>
    if containsBetaMarker v then
      scanTags rest st (match be with | none => some v | some b => some b)
    else
      match st with
      | none => (some v, be)
      | some s0 => scanTags rest (some s0) be

/-- get_latest_tag's selection on an already de-duplicated and
ascending-sorted version list, returning (latest_stable, latest_beta). -/
def get_latest_tag_select (versions : List String) : Option String × Option String :=
  scanTags versions none none

/-! Tree file reader: checkout_file_from_tree. -/

/-- An object found at a path of a commit tree: a blob carrying raw bytes, or
any non-blob object (the `not isinstance(blob, pygit2.Blob)` branch). -/
inductive TreeObj where
  | blob (data : List Nat)
  | nonBlob
  deriving DecidableEq, Repr

/-- The file tree of a resolved commit, as a path-indexed association list. -/
structure TreeModel where
  entries : List (String × TreeObj)

/-- tree[relative_path] lookup; KeyError is modelled as none. -/
def treeLookup : List (String × TreeObj) → String → Option TreeObj
  | [], _ => none
  | (k, v) :: rest, p => if k = p then some v else treeLookup rest p

/-- checkout_file_from_tree: resolve the ref (HEAD when None; revparse
otherwise — any resolution failure yields None, modelled by the `resolve`
oracle), look up the path in the commit's tree (absent → None, non-blob →
None), then decode the blob's bytes as UTF-8 and fall back to GBK when UTF-8
decoding raises; None when both decodings fail.  The two decoders are passed
as functions returning none exactly when the corresponding str.decode raises
UnicodeDecodeError. -/
def checkout_file_from_tree (utf8 gbk : List Nat → Option String)
    (resolve : Option String → Option TreeModel)
    (relativePath : String) (ref : Option String) : Option String :=
  match resolve ref with
  | none => none
  | some t =>
    match treeLookup t.entries relativePath with
    | none => none
    | some TreeObj.nonBlob => none
    | some (TreeObj.blob data) =>
      match utf8 data with
      | some content => some content
      | none =>
        match gbk data with
        | some content => some content
        | none => none

/-! Exception-flow layer for the public API.

Each public operation is embedded as a computation in `Except PyExc`: an
`Except.error` value means a raw Python exception escaped the operation.
Primitive calls that sit inside a try/except in the source are absorbed into
plain values (via `pyTry` or world fields that are already Option/Bool),
mirroring exactly which call sites of the source are guarded. -/

/-- A raw Python exception escaping a call. -/
inductive PyExc where
  | invalidVersion (tag : String)
  | err (msg : String)
  deriving DecidableEq, Repr

/-- A whole-body try/except returning a default: the translation of the
operations whose entire body is wrapped in try/except (get_current_branch,
is_current_branch_clean, is_current_branch_latest, fetch_total_commit,
fetch_page_commit, reset_to_commit, checkout_file_from_tree). -/
def pyTry {α : Type} (x : Except PyExc α) (d : α) : α :=
  match x with
  | Except.ok v => v
  | Except.error _ => d

/-- True when no exception escapes the computation. -/
def pyOk {α : Type} : Except PyExc α → Bool
  | Except.ok _ => true
  | Except.error _ => false

/-- get_current_branch: whole body guarded, None on failure. -/
def get_current_branch_exc (body : Except PyExc (Option String)) :
    Except PyExc (Option String) :=
  Except.ok (pyTry body none)

/-- is_current_branch_clean: len(repo.status()) == 0 with the whole body
guarded, None on failure. -/
def is_current_branch_clean_exc (body : Except PyExc Nat) :
    Except PyExc (Option Bool) :=
  Except.ok (match body with
    | Except.ok n => some (n == 0)
    | Except.error _ => none)

/-- is_current_branch_latest: whole body guarded, (False, message) on
failure. -/
def is_current_branch_latest_exc (body : Except PyExc (Bool × String)) :
    Except PyExc (Bool × String) :=
  Except.ok (pyTry body (false, "与远程分支不一致"))

/-- fetch_total_commit: whole body guarded, 0 on failure. -/
def fetch_total_commit_exc (body : Except PyExc Nat) : Except PyExc Nat :=
  Except.ok (pyTry body 0)

/-- fetch_page_commit: whole body guarded, [] on failure. -/
def fetch_page_commit_exc (body : Except PyExc (List GitLog)) :
    Except PyExc (List GitLog) :=
  Except.ok (pyTry body [])

/-- get_current_version: fetch_page_commit(0, 1) (guarded) followed by a
guarded [0] access (`logs[0].commit_id if logs else None`). -/
def get_current_version_exc (body : Except PyExc (List GitLog)) :
    Except PyExc (Option String) :=
  Except.ok (match pyTry body [] with
    | [] => none
    | g :: _ => some g.commit_id)

/-- reset_to_commit: whole body guarded, False on failure. -/
def reset_to_commit_exc (body : Except PyExc Unit) : Except PyExc Bool :=
  Except.ok (match body with
    | Except.ok _ => true
    | Except.error _ => false)

/-- checkout_file_from_tree: whole body guarded, None on failure. -/
def checkout_file_from_tree_exc (body : Except PyExc (Option String)) :
    Except PyExc (Option String) :=
  Except.ok (pyTry body none)

/-- init_git_proxy: no-op when .git is absent; otherwise _apply_proxy, which
is guarded (and itself swallows every failure). -/
def init_git_proxy_exc (dotGitExists : Bool) (applyProxyBody : Except PyExc Unit) :
    Except PyExc Unit :=
  Except.ok (if dotGitExists then pyTry applyProxyBody () else ())

/-- update_git_remote: no-op when .git is absent; otherwise _ensure_remote,
whose URL computation is exception-free and whose repository access is fully
guarded (None on failure). -/
def update_git_remote_exc (dotGitExists : Bool) (urlEmpty : Bool)
    (ensureBody : Except PyExc Unit) : Except PyExc Unit :=
  Except.ok (if dotGitExists then (if urlEmpty then () else pyTry ensureBody ()) else ())

/-- get_git_repository performs only configuration reads and string
concatenation; no exception sources. -/
def get_git_repository_exc (cfg : UrlConfig) (forClone : Bool) : Except PyExc String :=
  Except.ok (get_git_repository cfg forClone)

/-- checkout_latest_project_branch contains every underlying exception:
_ensure_remote, _fetch_remote, is_current_branch_clean, the forced reset,
get_current_branch, _checkout_branch and _sync_with_remote each catch their
own failures (modelled by the failure flags and Option-valued fields of
SyncEnv/RepoState), and the repository handle reads outside those guards only
ever return the handle already cached by the successful _ensure_remote. -/
def checkout_latest_project_branch_exc (env : SyncEnv) (s : RepoState) :
    Except PyExc (Bool × String) :=
  Except.ok (checkout_latest_project_branch env s).1

/-- World of one clone_repository run: which of its guarded steps succeed,
the outcome of the guarded _checkout_branch, and whether the final unguarded
repo.reset raises. -/
structure CloneWorld where
  initOk : Bool
  remoteOk : Bool
  fetchOk : Bool
  checkoutResult : Bool × Option Nat
  resetExc : Option PyExc

/-- clone_repository: init/_ensure_remote/_fetch_remote/_checkout_branch all
catch their own failures, but the final hard reset to the target commit
(lines 340-342) runs outside any try block, so an exception raised there
escapes the public API. -/
def clone_repository_exc (w : CloneWorld) : Except PyExc (Bool × String) :=
  if !w.initOk then Except.ok (false, "克隆仓库失败")
  else if !w.remoteOk then Except.ok (false, "更新远程仓库地址失败")
  else if !w.fetchOk then Except.ok (false, "获取远程代码失败")
  else
    match w.checkoutResult with
    | (false, _) => Except.ok (false, "克隆仓库失败")
    | (true, targetOid) =>
      match targetOid with
      | none => Except.ok (true, "克隆仓库成功")
      | some _ =>
        match w.resetExc with
        | some e => Except.error e
        | none => Except.ok (true, "克隆仓库成功")

/-- fetch_latest_code dispatches on the existence of the .git directory. -/
def fetch_latest_code_exc (dotGitExists : Bool) (w : CloneWorld)
    (env : SyncEnv) (s : RepoState) : Except PyExc (Bool × String) :=
  if dotGitExists then checkout_latest_project_branch_exc env s
  else clone_repository_exc w

/-- World of one get_latest_tag run: .git existence, the outcome of the
guarded _ensure_remote, the outcome of the guarded remote.list_heads (the
yielded ref names on success), and the packaging.version.Version parser —
none meaning the constructor raises InvalidVersion for that tag name. -/
structure TagWorld where
  dotGitExists : Bool
  remoteOk : Bool
  listHeads : Except PyExc (List String)
  parseVersion : String → Option Nat

/-- Insertion by sort key, ascending. -/
def insertByKey (key : String → Nat) (x : String) : List String → List String
  | [] => [x]
  | y :: l => if key x ≤ key y then x :: y :: l else y :: insertByKey key x l

/-- Insertion sort by sort key, ascending. -/
def sortByKey (key : String → Nat) : List String → List String
  | [] => []
  | x :: l => insertByKey key x (sortByKey key l)

/-- sorted(set(tags), key=Version) after the set() de-duplication: sorted()
evaluates the key on every element, so the call raises as soon as any tag
name fails to parse as a version; otherwise the list is sorted ascending by
the parsed key. -/
def pyListSortedByVersion (parse : String → Option Nat) (tags : List String) :
    Except PyExc (List String) :=
  match tags.find? (fun t => (parse t).isNone) with
  | some bad => Except.error (PyExc.invalidVersion bad)
  | none => Except.ok (sortByKey (fun t => (parse t).getD 0) tags)

/-- get_latest_tag: early returns and the list_heads call are guarded, but
sorted(set(tags), key=Version) at line 629 runs outside any try block, so an
invalid tag name raises packaging InvalidVersion out of the public API. -/
def get_latest_tag_exc (w : TagWorld) : Except PyExc (Option String × Option String) :=
  if !w.dotGitExists then Except.ok (none, none)
  else if !w.remoteOk then Except.ok (none, none)
  else
    match w.listHeads with
    | Except.error _ => Except.ok (none, none)
    | Except.ok heads =>
      let tags := (heads.filter (fun h => strStartsWith "refs/tags/" h)).map
        (fun h => h.drop 10)
      match pyListSortedByVersion w.parseVersion tags.dedup with
      | Except.error e => Except.error e
      | Except.ok versions => Except.ok (get_latest_tag_select versions)

/-! Concrete repository states and environments used to evaluate the model. -/

/-- Sync environment: repository present, remote and fetch fine, forced
update disabled, target branch "main". -/
def envMainNoForce : SyncEnv :=
  { dotGitExists := true, initOk := true, ensureRemoteOk := true, fetchOk := true,
    forceUpdate := false, gitBranch := "main" }

/-- Sync environment identical to envMainNoForce but with forced update
enabled. -/
def envMainForce : SyncEnv :=
  { envMainNoForce with forceUpdate := true }

/-- An up-to-date repository: local HEAD and the remote-tracking ref of
"main" both sit at commit 5, the working tree is clean, and the only
reachability in the commit graph is the reflexive one. -/
def sUpToDate : RepoState :=
  { refs := [("refs/remotes/origin/main", 5), ("refs/heads/main", 5)],
    head := some 5,
    headName := some "main",
    statusLen := some 0,
    reach := fun a b => a == b,
    resetLog := [] }

/-- A repository whose HEAD equals the remote commit 7 of "main": commit 7 is
an ancestor of commit 7 (every commit is its own ancestor), exhibiting the
boundary case of fast-forward safety. -/
def sEqualAncestor : RepoState :=
  { refs := [("refs/remotes/origin/main", 7)],
    head := some 7,
    headName := some "main",
    statusLen := some 0,
    reach := fun a b => a == b,
    resetLog := [] }

/-- A repository strictly behind the remote: HEAD at commit 3, remote commit
7, and 3 reachable from 7 (3 is a proper ancestor of 7). -/
def sBehind : RepoState :=
  { refs := [("refs/remotes/origin/main", 7)],
    head := some 3,
    headName := some "main",
    statusLen := some 0,
    reach := fun a b => (a == b) || (a == 7 && b == 3),
    resetLog := [] }

/-- A repository with exactly one uncommitted working-tree modification. -/
def sDirty : RepoState :=
  { refs := [("refs/remotes/origin/main", 7)],
    head := some 3,
    headName := some "main",
    statusLen := some 1,
    reach := fun a b => (a == b) || (a == 7 && b == 3),
    resetLog := [] }

/-- A repository on which the status query raises (statusLen = none). -/
def sStatusRaises : RepoState :=
  { refs := [("refs/remotes/origin/main", 7)],
    head := some 3,
    headName := some "main",
    statusLen := none,
    reach := fun a b => (a == b) || (a == 7 && b == 3),
    resetLog := [] }

/-- Gitee over HTTPS with the gh-proxy enabled: the configuration on which
the provider-independent reading of the proxy rewrite fails. -/
def cfgGiteeProxy : UrlConfig :=
  { repoType := RepoTypeV.gitee,
    gitMethod := GitMethodV.https,
    isGhProxy := true,
    ghProxyUrl := "https://mirror.example",
    githubHttps := "https://github.com/x/y.git",
    githubSsh := "git@github.com:x/y.git",
    giteeHttps := "https://gitee.com/x/y.git",
    giteeSsh := "git@gitee.com:x/y.git" }

/-- Identity-style time formatter used for concrete pagination runs. -/
def fmtNat : Nat → String :=
  fun n => toString n

/-- A linear history of 25 commits, most recent first: commit ranked k+1 has
time 25 - k. -/
def commits25 : List CommitC :=
  (List.range 25).map
    (fun k => { id := toString k ++ "abcdefgh", author := some "dev",
                commitTime := 25 - k, message := "commit " ++ toString k })

/-- Two-commit history for evaluating get_current_version. -/
def commits2 : List CommitC :=
  [{ id := "deadbeef00", author := some "dev", commitTime := 9, message := "tip" },
   { id := "cafebabe11", author := some "dev", commitTime := 5, message := "root" }]

/-- A UTF-8 decoding oracle for concrete runs: bytes decode iff each is below
128, to the concatenation of the corresponding characters. -/
def utf8Ascii : List Nat → Option String :=
  fun data =>
    if data.all (fun b => b < 128) then
      some (String.mk (data.map (fun b => Char.ofNat b)))
    else none

/-- A GBK decoding oracle for concrete runs: decodes everything to a fixed
witness string. -/
def gbkAll : List Nat → Option String :=
  fun _ => some "gbk-decoded"

/-- A concrete commit tree holding one ASCII file, one non-UTF-8 file and one
directory entry. -/
def treeSample : TreeModel :=
  { entries := [("config/app.yml", TreeObj.blob [104, 105]),
                ("data/blob.bin", TreeObj.blob [200, 201]),
                ("config", TreeObj.nonBlob)] }

/-- A ref resolver that resolves HEAD (None) and the tag "v1" to the sample
tree and fails on everything else. -/
def resolveSample : Option String → Option TreeModel :=
  fun r =>
    match r with
    | none => some treeSample
    | some name => if name = "v1" then some treeSample else none

/-- get_latest_tag world whose remote lists one tag that is not a valid
version, with a parser that rejects it. -/
def tagWorldBad : TagWorld :=
  { dotGitExists := true, remoteOk := true,
    listHeads := Except.ok ["refs/tags/not-a-version", "refs/heads/main"],
    parseVersion := fun _ => none }

/-- get_latest_tag world whose tags all parse. -/
def tagWorldOk : TagWorld :=
  { dotGitExists := true, remoteOk := true,
    listHeads := Except.ok ["refs/tags/1.0.0", "refs/tags/1.1.0-beta"],
    parseVersion := fun t => some t.length }

/-- clone_repository world in which every step succeeds and the final reset
does not raise. -/
def cloneWorldOk : CloneWorld :=
  { initOk := true, remoteOk := true, fetchOk := true,
    checkoutResult := (true, some 9), resetExc := none }

/-! Helper lemmas. -/

theorem hardReset_resetLog (s : RepoState) (oid : Nat) :
    (hardReset s oid).resetLog = s.resetLog ++ [oid] := rfl

theorem checkoutBranch_resetLog (s : RepoState) (branch : String) (allowLocal : Bool) :
    ((checkoutBranch s branch allowLocal).2).resetLog = s.resetLog := by
  unfold checkoutBranch
  split <;> rfl

theorem sync_resetLog_append (s : RepoState) (branch : String) (force : Bool) :
    ∃ t, ((sync_with_remote s branch force).2).resetLog = s.resetLog ++ t := by
  unfold sync_with_remote
  split
  · exact ⟨[], by simp⟩
  · split
    · split
      · exact ⟨_, rfl⟩
      · exact ⟨[], by simp⟩
    · split
      · exact ⟨_, rfl⟩
      · split
        · exact ⟨_, rfl⟩
        · exact ⟨[], by simp⟩

theorem tail_resetLog_append (env : SyncEnv) (s : RepoState) :
    ∃ t, ((checkoutLatestTail env s).2).resetLog = s.resetLog ++ t := by
  unfold checkoutLatestTail
  split
  · exact ⟨[], by simp⟩
  · split
    · next s2 heq =>
      refine ⟨[], ?_⟩
      have h2 := congrArg (fun p => p.2.resetLog) heq
      simp only at h2
      rw [← h2, checkoutBranch_resetLog]
      simp
    · next s2 heq =>
      have h2 := congrArg (fun p => p.2.resetLog) heq
      simp only at h2
      obtain ⟨t, ht⟩ := sync_resetLog_append s2 env.gitBranch env.forceUpdate
      refine ⟨t, ?_⟩
      simp only [ht, ← h2, checkoutBranch_resetLog]

/-! Claim theorems. -/

/-- C1: evaluating the sync entry point on an up-to-date repository (local
HEAD already equals the remote-tracking commit 5 of the target branch, clean
working tree, forced update disabled): the very first call FAILS with the
NEED_MANUAL_REBASE outcome (message 更新本地代码失败, diagnostic "local 5
ahead of 5"), instead of the FAST_FORWARD-or-no-op success that idempotence
claims, because pygit2's descendant_of is false for equal commits. -/
theorem fetch_latest_code_up_to_date_first_call_fails :
    (fetch_latest_code envMainNoForce sUpToDate).1 = (false, "更新本地代码失败")
    ∧ sUpToDate.head = some 5
    ∧ refLookup sUpToDate.refs (remoteRefName "main") = some 5
    ∧ sync_with_remote sUpToDate "main" false
        = (⟨false, "NEED_MANUAL_REBASE", "更新本地代码失败", some "local 5 ahead of 5"⟩,
           sUpToDate) :=
  ⟨rfl, rfl, rfl, rfl⟩

/-- C2 counterexample: local commit 7 IS an ancestor of remote commit 7
(every commit is its own ancestor, reach 7 7 = true), yet syncing without
forced update does not fast-forward; it fails with NEED_MANUAL_REBASE,
refuting the claim at the boundary case L = R. -/
theorem sync_equal_ancestor_fails :
    sEqualAncestor.head = some 7
    ∧ refLookup sEqualAncestor.refs (remoteRefName "main") = some 7
    ∧ sEqualAncestor.reach 7 7 = true
    ∧ (sync_with_remote sEqualAncestor "main" false).1.success = false
    ∧ (sync_with_remote sEqualAncestor "main" false).1.code = "NEED_MANUAL_REBASE" :=
  ⟨rfl, rfl, rfl, rfl, rfl⟩

/-- C2 (amended): for every local commit that is a PROPER ancestor of the
remote-tracking commit of the branch (lo ≠ ro and lo reachable from ro), the
sync hard-resets local HEAD to exactly the remote commit and succeeds with
code FAST_FORWARD, regardless of the force flag. -/
theorem sync_with_remote_fast_forward (s : RepoState) (branch : String) (force : Bool)
    (lo ro : Nat) (hhead : s.head = some lo)
    (href : refLookup s.refs (remoteRefName branch) = some ro)
    (hne : lo ≠ ro) (hreach : s.reach ro lo = true) :
    sync_with_remote s branch force
      = (⟨true, "FAST_FORWARD", "更新本地代码成功",
          some (toString lo ++ " -> " ++ toString ro)⟩, hardReset s ro) := by
  have hd : descendantOf s ro lo = true := by
    unfold descendantOf
    have hb : (ro != lo) = true := by
      simpa [bne_iff_ne] using (Ne.symm hne)
    simp [hb, hreach]
  simp [sync_with_remote, href, hhead, hd]

/-- C2 witness: on the concrete repository sBehind (HEAD 3, remote 7, 3 a
proper ancestor of 7) the sync fast-forwards to 7. -/
theorem sync_with_remote_fast_forward_witness :
    sBehind.head = some 3
    ∧ refLookup sBehind.refs (remoteRefName "main") = some 7
    ∧ (3 : Nat) ≠ 7
    ∧ sBehind.reach 7 3 = true
    ∧ sync_with_remote sBehind "main" false
        = (⟨true, "FAST_FORWARD", "更新本地代码成功",
            some (toString (3 : Nat) ++ " -> " ++ toString (7 : Nat))⟩,
           hardReset sBehind 7) :=
  ⟨rfl, rfl, by decide, rfl,
   sync_with_remote_fast_forward sBehind "main" false 3 7 rfl rfl (by decide) rfl⟩

/-- C3: whenever the repository exists, remote setup and fetch succeed, the
working tree has at least one uncommitted modification (status length n + 1)
and forced update is disabled, the sync entry point fails with the
dirty-working-tree outcome (the branch of the source the spec labels
NEED_MANUAL_RESOLUTION) and the repository state — in particular the
working-tree modification — is left completely untouched. -/
theorem fetch_latest_code_dirty_guard (env : SyncEnv) (s : RepoState) (n : Nat)
    (hdg : env.dotGitExists = true)
    (hre : env.ensureRemoteOk = true) (hf : env.fetchOk = true)
    (hforce : env.forceUpdate = false) (hdirty : s.statusLen = some (n + 1)) :
    fetch_latest_code env s
      = ((false, "未开启强制更新 当前代码有修改 请自行处理后再更新"), s) := by
  simp [fetch_latest_code, hdg, checkout_latest_project_branch, hre, hf,
        is_current_branch_clean, hdirty, optTruthy, hforce]

/-- C3 witness: the concrete dirty repository sDirty (one modification) with
forced update disabled. -/
theorem fetch_latest_code_dirty_guard_witness :
    envMainNoForce.dotGitExists = true
    ∧ envMainNoForce.forceUpdate = false
    ∧ sDirty.statusLen = some 1
    ∧ fetch_latest_code envMainNoForce sDirty
        = ((false, "未开启强制更新 当前代码有修改 请自行处理后再更新"), sDirty) :=
  ⟨rfl, rfl, rfl, fetch_latest_code_dirty_guard envMainNoForce sDirty 0 rfl rfl rfl rfl rfl⟩

/-- C6 counterexample: with provider Gitee, transport HTTPS, the hosting
proxy enabled and forClone true, the code returns the direct Gitee URL while
the claim ("rewritten exactly when the hosting-proxy is enabled and forClone
is true") demands the proxy-rewritten URL. -/
theorem get_git_repository_gitee_proxy_counterexample :
    cfgGiteeProxy.isGhProxy = true
    ∧ get_git_repository cfgGiteeProxy true = "https://gitee.com/x/y.git"
    ∧ get_git_repository_claimC6 cfgGiteeProxy true
        = "https://mirror.example/https://gitee.com/x/y.git"
    ∧ get_git_repository cfgGiteeProxy true ≠ get_git_repository_claimC6 cfgGiteeProxy true :=
  ⟨rfl, rfl, rfl, by decide⟩

/-- C6 (amended): SSH always yields the provider's SSH URL unmodified; HTTPS
yields the direct HTTPS URL, rewritten through the hosting-proxy endpoint
exactly when the provider is GitHub AND the proxy is enabled AND forClone is
true (Gitee HTTPS is never rewritten); an unrecognized provider yields the
empty string. -/
theorem get_git_repository_resolution (cfg : UrlConfig) (forClone : Bool) :
    (cfg.gitMethod = GitMethodV.ssh →
      get_git_repository cfg forClone
        = (match cfg.repoType with
           | RepoTypeV.github => cfg.githubSsh
           | RepoTypeV.gitee => cfg.giteeSsh
           | RepoTypeV.other => ""))
    ∧ (cfg.gitMethod = GitMethodV.https → cfg.repoType = RepoTypeV.github →
      get_git_repository cfg forClone
        = (if cfg.isGhProxy && forClone then cfg.ghProxyUrl ++ "/" ++ cfg.githubHttps
           else cfg.githubHttps))
    ∧ (cfg.gitMethod = GitMethodV.https → cfg.repoType = RepoTypeV.gitee →
      get_git_repository cfg forClone = cfg.giteeHttps)
    ∧ (cfg.repoType = RepoTypeV.other → get_git_repository cfg forClone = "") := by
  rcases cfg with ⟨rt, gm, p, pu, ghh, ghs, geh, ges⟩
  cases rt <;> cases gm <;> simp [get_git_repository]

/-- C6 witness: the amended rule evaluated on the concrete Gitee/HTTPS/proxy
configuration. -/
theorem get_git_repository_resolution_witness :
    cfgGiteeProxy.gitMethod = GitMethodV.https
    ∧ cfgGiteeProxy.repoType = RepoTypeV.gitee
    ∧ get_git_repository cfgGiteeProxy true = cfgGiteeProxy.giteeHttps :=
  ⟨rfl, rfl, (get_git_repository_resolution cfgGiteeProxy true).2.2.1 rfl rfl⟩

/-- C10: when querying the repository status raises, is_current_branch_clean
returns None rather than False, and checkout_latest_project_branch treats
that None exactly like a dirty working tree: with forced update disabled the
sync fails with the dirty-tree message and leaves the state untouched; with
forced update enabled the first hard reset performed targets the
remote-tracking commit of the configured branch. -/
theorem clean_none_treated_as_dirty (env : SyncEnv) (s : RepoState) (oid : Nat)
    (hre : env.ensureRemoteOk = true) (hf : env.fetchOk = true)
    (hstatus : s.statusLen = none)
    (href : refLookup s.refs (remoteRefName env.gitBranch) = some oid)
    (hlog : s.resetLog = []) :
    is_current_branch_clean s = none
    ∧ (env.forceUpdate = false →
        checkout_latest_project_branch env s
          = ((false, "未开启强制更新 当前代码有修改 请自行处理后再更新"), s))
    ∧ (env.forceUpdate = true →
        ((checkout_latest_project_branch env s).2).resetLog.head? = some oid) := by
  refine ⟨by simp [is_current_branch_clean, hstatus], ?_, ?_⟩
  · intro hforce
    simp [checkout_latest_project_branch, hre, hf, is_current_branch_clean, hstatus,
          optTruthy, hforce]
  · intro hforce
    have hguard : checkout_latest_project_branch env s
        = checkoutLatestTail env (hardReset s oid) := by
      simp [checkout_latest_project_branch, hre, hf, is_current_branch_clean, hstatus,
            optTruthy, hforce, getBranchCommit, href]
    rw [hguard]
    obtain ⟨t, ht⟩ := tail_resetLog_append env (hardReset s oid)
    rw [ht, hardReset_resetLog, hlog]
    rfl

/-- C10 witness: the concrete status-raising repository sStatusRaises under
both force settings. -/
theorem clean_none_treated_as_dirty_witness :
    is_current_branch_clean sStatusRaises = none
    ∧ checkout_latest_project_branch envMainNoForce sStatusRaises
        = ((false, "未开启强制更新 当前代码有修改 请自行处理后再更新"), sStatusRaises)
    ∧ ((checkout_latest_project_branch envMainForce sStatusRaises).2).resetLog.head?
        = some 7 :=
  ⟨(clean_none_treated_as_dirty envMainNoForce sStatusRaises 7 rfl rfl rfl rfl rfl).1,
   (clean_none_treated_as_dirty envMainNoForce sStatusRaises 7 rfl rfl rfl rfl rfl).2.1 rfl,
   (clean_none_treated_as_dirty envMainForce sStatusRaises 7 rfl rfl rfl rfl rfl).2.2 rfl⟩

theorem pageLoop_ge (fmt : Nat → String) (skip ps : Nat) :
    ∀ (l : List CommitC) (idx : Nat) (logs : List GitLog), skip ≤ idx →
      pageLoop fmt skip ps l idx logs
        = logs ++ (l.take (ps - logs.length)).map (toGitLog fmt) := by
  intro l
  induction l with
  | nil => intro idx logs h; simp [pageLoop]
  | cons c rest ih =>
    intro idx logs h
    unfold pageLoop
    rw [if_neg (Nat.not_lt.mpr h)]
    by_cases hlen : ps ≤ logs.length
    · rw [if_pos hlen]
      have h0 : ps - logs.length = 0 := Nat.sub_eq_zero_of_le hlen
      simp [h0]
    · rw [if_neg hlen]
      rw [ih (idx + 1) (logs ++ [toGitLog fmt c]) (Nat.le_succ_of_le h)]
      have h1 : ps - logs.length = (ps - (logs.length + 1)) + 1 := by omega
      rw [h1]
      simp [List.take_succ_cons, List.append_assoc]

theorem pageLoop_skip (fmt : Nat → String) (skip ps : Nat) :
    ∀ (l : List CommitC) (idx : Nat) (logs : List GitLog), idx ≤ skip →
      pageLoop fmt skip ps l idx logs
        = pageLoop fmt skip ps (l.drop (skip - idx)) skip logs := by
  intro l
  induction l with
  | nil => intro idx logs h; simp [pageLoop]
  | cons c rest ih =>
    intro idx logs h
    rcases Nat.lt_or_ge idx skip with hlt | hge
    · have hstep : idx + 1 ≤ skip := hlt
      conv_lhs => unfold pageLoop
      rw [if_pos hlt]
      rw [ih (idx + 1) logs hstep]
      have hd : skip - idx = (skip - (idx + 1)) + 1 := by omega
      rw [hd, List.drop_succ_cons]
    · have heq : idx = skip := Nat.le_antisymm h hge
      subst heq
      simp

theorem fetch_page_commit_drop_take (fmt : Nat → String) (commits : List CommitC)
    (n s : Nat) :
    fetch_page_commit fmt (some commits) n s
      = ((commits.drop (n * s)).take s).map (toGitLog fmt) := by
  rw [show fetch_page_commit fmt (some commits) n s
      = pageLoop fmt (n * s) s commits 0 [] from rfl]
  rw [pageLoop_skip fmt (n * s) s commits 0 [] (Nat.zero_le _)]
  rw [Nat.sub_zero]
  rw [pageLoop_ge fmt (n * s) s (commits.drop (n * s)) (n * s) [] (Nat.le_refl _)]
  simp

theorem drop_take_adjacent (l : List CommitC) (n s : Nat) :
    (l.drop (n * s)).take s ++ (l.drop ((n + 1) * s)).take s
      = (l.drop (n * s)).take (s + s) := by
  have h : (n + 1) * s = n * s + s := Nat.succ_mul n s
  rw [List.take_add, List.drop_drop, h]

/-- C7: on a history walked in reverse-chronological order, fetch_page_commit
skips exactly pageNum * pageSize entries and collects the next up-to-pageSize
records (drop/take); two adjacent pages concatenate to a contiguous
double-size slice (no duplicate, no skip); and the returned slice of a
time-descending history is itself time-descending. -/
theorem fetch_page_commit_pagination (fmt : Nat → String) (commits : List CommitC)
    (n s : Nat) (_hs : 0 < s) :
    fetch_page_commit fmt (some commits) n s
      = ((commits.drop (n * s)).take s).map (toGitLog fmt)
    ∧ fetch_page_commit fmt (some commits) n s
        ++ fetch_page_commit fmt (some commits) (n + 1) s
      = ((commits.drop (n * s)).take (s + s)).map (toGitLog fmt)
    ∧ (commits.Pairwise (fun a b => b.commitTime ≤ a.commitTime) →
        ((commits.drop (n * s)).take s).Pairwise (fun a b => b.commitTime ≤ a.commitTime)) := by
  refine ⟨fetch_page_commit_drop_take fmt commits n s, ?_, ?_⟩
  · rw [fetch_page_commit_drop_take, fetch_page_commit_drop_take, ← List.map_append,
        drop_take_adjacent]
  · intro hp
    exact List.Pairwise.sublist ((List.take_sublist _ _).trans (List.drop_sublist _ _)) hp

/-- C7 witness: the linear 25-commit history, page 2 of size 10: the page is
the drop-20/take-10 slice, pages 2 and 3 concatenate without duplicate or
gap, and the returned short ids are those of the commits ranked 21-25. -/
theorem fetch_page_commit_pagination_witness :
    (0 : Nat) < 10
    ∧ (fetch_page_commit fmtNat (some commits25) 2 10
        = ((commits25.drop (2 * 10)).take 10).map (toGitLog fmtNat)
      ∧ fetch_page_commit fmtNat (some commits25) 2 10
          ++ fetch_page_commit fmtNat (some commits25) 3 10
        = ((commits25.drop (2 * 10)).take (10 + 10)).map (toGitLog fmtNat)
      ∧ (commits25.Pairwise (fun a b => b.commitTime ≤ a.commitTime) →
          ((commits25.drop (2 * 10)).take 10).Pairwise
            (fun a b => b.commitTime ≤ a.commitTime)))
    ∧ (fetch_page_commit fmtNat (some commits25) 2 10).map (fun g => g.commit_id)
        = ["20abcde", "21abcde", "22abcde", "23abcde", "24abcde"] :=
  ⟨by decide, fetch_page_commit_pagination fmtNat commits25 2 10 (by decide), rfl⟩

/-- C9: get_current_version returns the GitLog id (the 7-character short id)
of the first commit yielded by the history walk — the single most recent
commit, the first entry of page 0 — and None when history is empty or HEAD is
missing. -/
theorem get_current_version_head (fmt : Nat → String) (commits : List CommitC) :
    (∀ c rest, commits = c :: rest →
      get_current_version fmt (some commits) = some (c.id.take 7))
    ∧ get_current_version fmt (some []) = none
    ∧ get_current_version fmt none = none := by
  refine ⟨?_, rfl, rfl⟩
  intro c rest h
  subst h
  simp [get_current_version, fetch_page_commit_drop_take, toGitLog]

/-- C9 witness: the two-commit history commits2 whose tip id is
"deadbeef00". -/
theorem get_current_version_head_witness :
    get_current_version fmtNat (some commits2) = some ("deadbeef00".take 7)
    ∧ get_current_version fmtNat (some []) = none
    ∧ get_current_version fmtNat none = none :=
  ⟨(get_current_version_head fmtNat commits2).1
     { id := "deadbeef00", author := some "dev", commitTime := 9, message := "tip" }
     [{ id := "cafebabe11", author := some "dev", commitTime := 5, message := "root" }]
     rfl,
   (get_current_version_head fmtNat commits2).2.1,
   (get_current_version_head fmtNat commits2).2.2⟩

theorem scanTags_beta_locked : ∀ (l : List String) (b : String),
    scanTags l none (some b) = (l.find? (fun v => !containsBetaMarker v), some b) := by
  intro l
  induction l with
  | nil => intro b; rfl
  | cons v rest ih =>
    intro b
    cases hb : containsBetaMarker v
    · simp [scanTags, hb, List.find?_cons]
    · simp [scanTags, hb, List.find?_cons, ih]

/-- C4 counterexample: on the ascending-sorted version list
["1.0.0", "1.1.0-beta"], the first version containing the marker is
"1.1.0-beta", yet the selection records latestBeta = none, because the scan
breaks at the stable "1.0.0" before ever seeing the beta. -/
theorem get_latest_tag_select_counterexample :
    get_latest_tag_select ["1.0.0", "1.1.0-beta"] = (some "1.0.0", none)
    ∧ List.find? (fun v => containsBetaMarker v) ["1.0.0", "1.1.0-beta"]
        = some "1.1.0-beta"
    ∧ (get_latest_tag_select ["1.0.0", "1.1.0-beta"]).2
        ≠ List.find? (fun v => containsBetaMarker v) ["1.0.0", "1.1.0-beta"] :=
  ⟨rfl, rfl, by decide⟩

/-- C4 (amended): over the de-duplicated ascending-sorted version list,
latestStable is the first version not containing '-beta' (the scan stops
entirely there), while latestBeta is the head of the list when that head
contains '-beta', and none otherwise — i.e. the first marker version is
recorded only when it precedes every stable version. -/
theorem get_latest_tag_select_characterization (versions : List String) :
    get_latest_tag_select versions
      = (versions.find? (fun v => !containsBetaMarker v),
         match versions.head? with
         | some v => if containsBetaMarker v then some v else none
         | none => none) := by
  cases versions with
  | nil => rfl
  | cons v rest =>
    cases hb : containsBetaMarker v
    · simp [get_latest_tag_select, scanTags, hb, List.find?_cons]
    · simp [get_latest_tag_select, scanTags, hb, List.find?_cons, scanTags_beta_locked]

/-- C8: for every pair of decoders, every resolvable ref and every path,
checkout_file_from_tree returns None when the path is absent from the
resolved commit's tree; when the path holds a blob it returns the UTF-8
decoding of the blob's bytes, falls back to the GBK decoding when UTF-8
decoding fails, and returns None when both decodings fail. -/
theorem checkout_file_from_tree_decoding (utf8 gbk : List Nat → Option String)
    (resolve : Option String → Option TreeModel) (path : String) (ref : Option String)
    (t : TreeModel) (hres : resolve ref = some t) :
    (treeLookup t.entries path = none →
      checkout_file_from_tree utf8 gbk resolve path ref = none)
    ∧ (∀ data, treeLookup t.entries path = some (TreeObj.blob data) →
        checkout_file_from_tree utf8 gbk resolve path ref
          = (match utf8 data with
             | some content => some content
             | none => gbk data))
    ∧ (∀ data, treeLookup t.entries path = some (TreeObj.blob data) →
        utf8 data = none → gbk data = none →
        checkout_file_from_tree utf8 gbk resolve path ref = none) := by
  refine ⟨?_, ?_, ?_⟩
  · intro habs
    simp [checkout_file_from_tree, hres, habs]
  · intro data hdata
    simp only [checkout_file_from_tree, hres, hdata]
    cases utf8 data
    · cases gbk data <;> rfl
    · rfl
  · intro data hdata hu hg
    simp [checkout_file_from_tree, hres, hdata, hu, hg]

/-- C8 witness: the sample tree read through HEAD: a missing path gives
None, the ASCII blob decodes via UTF-8, and the non-UTF-8 blob falls back to
the GBK decoder. -/
theorem checkout_file_from_tree_decoding_witness :
    resolveSample none = some treeSample
    ∧ checkout_file_from_tree utf8Ascii gbkAll resolveSample "missing" none = none
    ∧ checkout_file_from_tree utf8Ascii gbkAll resolveSample "config/app.yml" none
        = (match utf8Ascii [104, 105] with
           | some content => some content
           | none => gbkAll [104, 105])
    ∧ checkout_file_from_tree utf8Ascii gbkAll resolveSample "data/blob.bin" none
        = (match utf8Ascii [200, 201] with
           | some content => some content
           | none => gbkAll [200, 201]) :=
  ⟨rfl,
   (checkout_file_from_tree_decoding utf8Ascii gbkAll resolveSample "missing" none
     treeSample rfl).1 rfl,
   (checkout_file_from_tree_decoding utf8Ascii gbkAll resolveSample "config/app.yml" none
     treeSample rfl).2.1 [104, 105] rfl,
   (checkout_file_from_tree_decoding utf8Ascii gbkAll resolveSample "data/blob.bin" none
     treeSample rfl).2.1 [200, 201] rfl⟩

/-- C5 counterexample: the public get_latest_tag propagates a raw exception:
when the remote lists the tag "not-a-version" and the version parser rejects
it, sorted(set(tags), key=Version) raises InvalidVersion outside every try
block and the exception escapes the public API. -/
theorem get_latest_tag_exc_escapes :
    get_latest_tag_exc tagWorldBad = Except.error (PyExc.invalidVersion "not-a-version") :=
  rfl

/-- C5 (amended): every public operation of the service contains the
underlying transport/storage exceptions and returns a result value, with
exactly two exceptions: clone_repository (and hence fetch_latest_code on its
clone path) propagates an exception raised by its final hard reset, and
get_latest_tag propagates the version-parse exception raised when some listed
tag name is not a valid version. -/
theorem public_api_exception_containment :
    (∀ b, pyOk (get_current_branch_exc b) = true)
    ∧ (∀ b, pyOk (is_current_branch_clean_exc b) = true)
    ∧ (∀ b, pyOk (is_current_branch_latest_exc b) = true)
    ∧ (∀ b, pyOk (fetch_total_commit_exc b) = true)
    ∧ (∀ b, pyOk (fetch_page_commit_exc b) = true)
    ∧ (∀ b, pyOk (get_current_version_exc b) = true)
    ∧ (∀ b, pyOk (reset_to_commit_exc b) = true)
    ∧ (∀ b, pyOk (checkout_file_from_tree_exc b) = true)
    ∧ (∀ d b, pyOk (init_git_proxy_exc d b) = true)
    ∧ (∀ d u b, pyOk (update_git_remote_exc d u b) = true)
    ∧ (∀ cfg fc, pyOk (get_git_repository_exc cfg fc) = true)
    ∧ (∀ env st, pyOk (checkout_latest_project_branch_exc env st) = true)
    ∧ (∀ w, w.resetExc = none → pyOk (clone_repository_exc w) = true)
    ∧ (∀ w, (∀ tag, (w.parseVersion tag).isSome = true) →
        pyOk (get_latest_tag_exc w) = true)
    ∧ (∀ dg w env st, w.resetExc = none →
        pyOk (fetch_latest_code_exc dg w env st) = true) := by
  have hclone : ∀ w : CloneWorld, w.resetExc = none →
      pyOk (clone_repository_exc w) = true := by
    intro w hw
    unfold clone_repository_exc
    split
    · rfl
    · split
      · rfl
      · split
        · rfl
        · split
          · rfl
          · split
            · rfl
            · rw [hw]
              rfl
  have htag : ∀ w : TagWorld, (∀ tag, (w.parseVersion tag).isSome = true) →
      pyOk (get_latest_tag_exc w) = true := by
    intro w hw
    unfold get_latest_tag_exc
    split
    · rfl
    · split
      · rfl
      · split
        · rfl
        · next heads _ =>
          have hfind :
              ((((heads.filter (fun h => strStartsWith "refs/tags/" h)).map
                (fun h => h.drop 10)).dedup).find?
                (fun t => (w.parseVersion t).isNone)) = none := by
            rw [List.find?_eq_none]
            intro x _
            cases hx : w.parseVersion x with
            | none =>
              have h2 := hw x
              rw [hx] at h2
              exact absurd h2 (by simp)
            | some k => simp [hx]
          simp [pyListSortedByVersion, hfind, pyOk]
  refine ⟨fun b => rfl, fun b => ?_, fun b => rfl, fun b => rfl, fun b => rfl,
    fun b => ?_, fun b => ?_, fun b => rfl, fun d b => rfl, fun d u b => rfl,
    fun cfg fc => rfl, fun env st => rfl, hclone, htag, ?_⟩
  · cases b <;> rfl
  · cases b <;> rfl
  · cases b <;> rfl
  · intro dg w env st hw
    unfold fetch_latest_code_exc
    split
    · rfl
    · exact hclone w hw

/-- C5 witness: containment evaluated on a clone world whose final reset does
not raise and on a tag world whose tag names all parse. -/
theorem public_api_exception_containment_witness :
    pyOk (clone_repository_exc cloneWorldOk) = true
    ∧ pyOk (get_latest_tag_exc tagWorldOk) = true := by
  obtain ⟨-, -, -, -, -, -, -, -, -, -, -, -, hclone, htag, -⟩ :=
    public_api_exception_containment
  exact ⟨hclone cloneWorldOk rfl, htag tagWorldOk (fun tag => rfl)⟩

end GitServiceModel

